import Mathlib

/-!
Shallow embedding of `GeometricFilter_HMatrix_AC`
(src/openMVG/matching_image_collection/H_ACRobust.hpp) and the spec-level
model of its external collaborators.

Modelling conventions:
* C++ `double` is modelled as `ℚ`; the value `std::numeric_limits<double>::infinity()`
  is modelled by `Option ℚ` with `none` standing for infinity wherever a scalar
  field can hold infinity (`m_dPrecision`, `m_dPrecision_robust`).
* Matrices of 2D columns are modelled as `List Point` (one entry per column,
  in column order).
* `matching::MatchesPerDescType` (a map descriptor-type → list of index matches)
  is modelled as an association list `List (DescType × List IndMatch)`.
* Reference (in/out) parameters are modelled by passing the prior value in and
  returning the new value; member mutation is modelled by returning the new
  record. All functions are total: the source raises no exception on the
  paths embedded here.
-/

set_option autoImplicit false

set_option allowUnsafeReducibility true
attribute [semireducible] Rat.mul Rat.add Rat.sub Rat.div Rat.inv Rat.neg

/-- Descriptor type tag (`features::EImageDescriberType`). -/
abbrev DescType := Nat

/-- An index match (`matching::IndMatch`): a pair of feature indices. -/
abbrev IndMatch := Nat × Nat

/-- `matching::MatchesPerDescType`, as an association list keyed by descriptor type. -/
abbrev MatchesPerDescType := List (DescType × List IndMatch)

/-- A 2D point (one column of a `Mat`). -/
abbrev Point := ℚ × ℚ

/-- A 3×3 matrix of scalars (`Mat3`), listed row-major. -/
structure Mat3 where
  a00 : ℚ
  a01 : ℚ
  a02 : ℚ
  a10 : ℚ
  a11 : ℚ
  a12 : ℚ
  a20 : ℚ
  a21 : ℚ
  a22 : ℚ
deriving DecidableEq

/-- `Mat3::Identity()`. -/
def Mat3.identity : Mat3 := ⟨1, 0, 0, 0, 1, 0, 0, 0, 1⟩

/-- `cameras::IntrinsicBase` as used here: validity flag and undistortion map. -/
structure IntrinsicBase where
  isValid : Bool
  get_ud_pixel : Point → Point

/-- `sfm::View`: image dimensions and the id of its intrinsic. -/
structure View where
  ui_width : Nat
  ui_height : Nat
  id_intrinsic : Nat

/-- `sfm::SfM_Data`: per-view records and the intrinsics map.
`intrinsics i = none` models `GetIntrinsics().count(i) == 0` (the source then
uses a null camera pointer). -/
structure SfM_Data where
  views : Nat → View
  intrinsics : Nat → Option IntrinsicBase

/-- `features::RegionsPerView` as consumed here: common descriptor types of a
pair, per-view per-type region positions, and all regions of a view
(`getAllRegions`), keyed by descriptor type. -/
structure RegionsPerView where
  commonDescTypes : Nat × Nat → List DescType
  positions : Nat → DescType → List Point
  allRegions : Nat → List (DescType × List Point)

/-- Modelled from the spec: total number of matches over all descriptor types
(`MatchesPerDescType::getNbAllMatches`, declared outside src/). -/
def getNbAllMatches : MatchesPerDescType → Nat
  | [] => 0
  | p :: rest => p.2.length + getNbAllMatches rest

/-- Lookup of a descriptor type's match list in a `MatchesPerDescType`
(first occurrence; absent keys give the empty list). -/
def lookupD : MatchesPerDescType → DescType → List IndMatch
  | [], _ => []
  | p :: rest, t => if p.1 = t then p.2 else lookupD rest t

/-- `matches[descType] = v` on the association list: replace the value at an
existing key, or append the binding. -/
def setKey (m : MatchesPerDescType) (t : DescType) (v : List IndMatch) : MatchesPerDescType :=
  if t ∈ m.map Prod.fst then
    m.map (fun p => if p.1 = t then (t, v) else p)
  else
    m ++ [(t, v)]

/-- The filter functor state (`GeometricFilter_HMatrix_AC` data members). -/
structure GeometricFilter_HMatrix_AC where
  m_dPrecision : Option ℚ
  m_stIteration : Nat
  m_H : Mat3
  m_dPrecision_robust : Option ℚ
deriving DecidableEq

/-- The constructor `GeometricFilter_HMatrix_AC(dPrecision, iteration)`:
`m_H` starts at the identity and `m_dPrecision_robust` at infinity. -/
def GeometricFilter_HMatrix_AC.init (dPrecision : Option ℚ) (iteration : Nat) :
    GeometricFilter_HMatrix_AC :=
  { m_dPrecision := dPrecision
    m_stIteration := iteration
    m_H := Mat3.identity
    m_dPrecision_robust := none }

/-- `fillMatricesWithUndistortFeatures`: if the camera is present and valid,
each column is the undistorted pixel of the corresponding feature; otherwise
the raw coordinates are copied unchanged. -/
def fillMatricesWithUndistortFeatures (cam : Option IntrinsicBase)
    (vec_feats : List Point) : List Point :=
  match cam with
  | some c => if c.isValid then vec_feats.map c.get_ud_pixel else vec_feats
  | none => vec_feats

/-- `FourPointSolver::MINIMUM_SAMPLES` for the homography kernel. -/
def MINIMUM_SAMPLES : Nat := 4

/-- Modelled from the spec: `OPENMVG_MINIMUM_SAMPLES_COEF` (declared outside
src/), the design constant 2.5 of §4.3 step 5. -/
def OPENMVG_MINIMUM_SAMPLES_COEF : ℚ := 5 / 2

/-- The best candidate found by the AC-RANSAC sampling loop: model, inlier
index set, square-rooted residual threshold (robust precision) and NFA score. -/
structure ACBest where
  model : Mat3
  inliers : List Nat
  precision : ℚ
  nfa : ℚ

/-- Modelled from the spec: the internal sampling/scoring loop of the
AC-RANSAC estimator (§4.3 steps 1–4; `robust_estimator_ACRansac.hpp` is not
in src/). It is kept abstract: any function of the seed, the two point
matrices, the two image dimension pairs, the iteration budget and the squared
upper-bound precision, whose returned inlier indices are valid indices into
the point columns. -/
structure ACSearch where
  run : Nat → List Point → List Point → Nat × Nat → Nat × Nat → Nat → Option ℚ → ACBest
  wf : ∀ seed xI xJ dI dJ it bound,
    ∀ i ∈ (run seed xI xJ dI dJ it bound).inliers, i < xI.length

/-- Modelled from the spec: `ACRANSAC` (§4.3 steps 5–6, declared outside
src/): run the sampling loop; accept only if the best inlier count exceeds
`MINIMUM_SAMPLES * OPENMVG_MINIMUM_SAMPLES_COEF`, in which case the winning
model is written into the caller-owned model slot and the (robust precision,
NFA) pair is returned; otherwise report an empty inlier set and leave the
model slot at its prior value. -/
def ACRANSAC (S : ACSearch) (seed : Nat) (xI xJ : List Point)
    (dI dJ : Nat × Nat) (iterations : Nat) (model : Mat3) (bound : Option ℚ) :
    List Nat × Mat3 × ℚ × ℚ :=
  let best := S.run seed xI xJ dI dJ iterations bound
  if (MINIMUM_SAMPLES : ℚ) * OPENMVG_MINIMUM_SAMPLES_COEF < (best.inliers.length : ℚ) then
    (best.inliers, best.model, best.precision, best.nfa)
  else
    ([], model, 0, 0)

/-- Modelled from the spec: `MatchesPairToMat` (declared outside src/; §3
"Point Matrix Pair" and §4.1): gather, per common descriptor type in
encounter order, the positions of the matched features of both views,
concatenate the per-type blocks into one pair of equal-width matrices, and
undistort each side through the view's optional intrinsic (passthrough when
absent or invalid). -/
def MatchesPairToMat (pairIndex : Nat × Nat) (putative : MatchesPerDescType)
    (sfmData : SfM_Data) (rpv : RegionsPerView) (descTypes : List DescType) :
    List Point × List Point :=
  let cam_I := sfmData.intrinsics (sfmData.views pairIndex.1).id_intrinsic
  let cam_J := sfmData.intrinsics (sfmData.views pairIndex.2).id_intrinsic
  let pairsRaw : List (Point × Point) := descTypes.flatMap (fun t =>
    (lookupD putative t).map (fun m =>
      ((rpv.positions pairIndex.1 t).getD m.1 (0, 0),
       (rpv.positions pairIndex.2 t).getD m.2 (0, 0))))
  (fillMatricesWithUndistortFeatures cam_I (pairsRaw.map Prod.fst),
   fillMatricesWithUndistortFeatures cam_J (pairsRaw.map Prod.snd))

/-- Select the matches of one per-type block whose global (concatenated)
column index belongs to the inlier index set; `offset` is the global index of
the block's first column. -/
def selectByGlobalIndex (inliers : List Nat) : Nat → List IndMatch → List IndMatch
  | _, [] => []
  | offset, m :: rest =>
    if offset ∈ inliers then m :: selectByGlobalIndex inliers (offset + 1) rest
    else selectByGlobalIndex inliers (offset + 1) rest

/-- Global column index at which a descriptor type's block starts in the
concatenation order of `descTypes`. -/
def blockOffset (putative : MatchesPerDescType) : List DescType → DescType → Nat
  | [], _ => 0
  | t' :: rest, t =>
    if t' = t then 0 else (lookupD putative t').length + blockOffset putative rest t

/-- Modelled from the spec: `copyInlierMatches` (declared outside src/; §6
"an inlier Correspondence Set with the same keying as the input, a strictly
smaller (or equal) total match count"): project the flat inlier column
indices back into per-descriptor-type correspondences drawn from the
putative set, keeping the input's keying. -/
def copyInlierMatches (inliers : List Nat) (putative : MatchesPerDescType)
    (descTypes : List DescType) : MatchesPerDescType :=
  putative.map (fun p =>
    if p.1 ∈ descTypes then
      (p.1, selectByGlobalIndex inliers (blockOffset putative descTypes p.1) p.2)
    else
      (p.1, []))

/-- The `ACRANSAC` call issued inside `Robust_estimation`: the kernel is
built from the matrices of `MatchesPairToMat` over the common descriptor
types and the two views' dimensions, the budget is `m_stIteration`, the model
slot is `m_H` and the upper bound is `Square(m_dPrecision)`. -/
def robustEstimationAC (S : ACSearch) (seed : Nat)
    (self : GeometricFilter_HMatrix_AC) (sfmData : SfM_Data)
    (rpv : RegionsPerView) (pairIndex : Nat × Nat)
    (putativeMatchesPerType : MatchesPerDescType) : List Nat × Mat3 × ℚ × ℚ :=
  ACRANSAC S seed
    (MatchesPairToMat pairIndex putativeMatchesPerType sfmData rpv
      (rpv.commonDescTypes pairIndex)).1
    (MatchesPairToMat pairIndex putativeMatchesPerType sfmData rpv
      (rpv.commonDescTypes pairIndex)).2
    ((sfmData.views pairIndex.1).ui_width, (sfmData.views pairIndex.1).ui_height)
    ((sfmData.views pairIndex.2).ui_width, (sfmData.views pairIndex.2).ui_height)
    self.m_stIteration self.m_H (self.m_dPrecision.map (fun p => p * p))

/-- The inlier index vector produced by the `ACRANSAC` call inside
`Robust_estimation` (the `inliers` local of the source). -/
def robustEstimationInliers (S : ACSearch) (seed : Nat)
    (self : GeometricFilter_HMatrix_AC) (sfmData : SfM_Data)
    (rpv : RegionsPerView) (pairIndex : Nat × Nat)
    (putativeMatchesPerType : MatchesPerDescType) : List Nat :=
  (robustEstimationAC S seed self sfmData rpv pairIndex putativeMatchesPerType).1

/-- `GeometricFilter_HMatrix_AC::Robust_estimation`.  The random source of
the sampling loop is the injected seed (spec §9); `geometricInliersPerType`
is the prior content of the in/out output parameter, cleared on entry.
Returns (success flag, new state, new output content). -/
def Robust_estimation (S : ACSearch) (seed : Nat)
    (self : GeometricFilter_HMatrix_AC) (sfmData : SfM_Data)
    (rpv : RegionsPerView) (pairIndex : Nat × Nat)
    (putativeMatchesPerType : MatchesPerDescType)
    (geometricInliersPerType : MatchesPerDescType) :
    Bool × GeometricFilter_HMatrix_AC × MatchesPerDescType :=
  let out0 : MatchesPerDescType := []
  if rpv.commonDescTypes pairIndex = [] then
    (false, self, out0)
  else
    let acOut := robustEstimationAC S seed self sfmData rpv pairIndex putativeMatchesPerType
    let inliers := acOut.1
    let self1 := { self with m_H := acOut.2.1 }
    if (inliers.length : ℚ) ≤ (MINIMUM_SAMPLES : ℚ) * OPENMVG_MINIMUM_SAMPLES_COEF then
      (false, self1, out0)
    else
      let self2 := { self1 with m_dPrecision_robust := some acOut.2.2.1 }
      (true, self2,
        copyInlierMatches inliers putativeMatchesPerType (rpv.commonDescTypes pairIndex))

/-- Modelled from the spec: the position-only `geometry_aware::GuidedMatching`
overload (declared outside src/; §4.4 geometry-only mode): for every column
of `xI`, accept every column of `xJ` whose residual under the model is within
the threshold — possibly several matches per source point.  The per-model
error metric is a pluggable strategy (spec §1) passed as `residual`. -/
def GuidedMatchingPositions (residual : Mat3 → Point → Point → ℚ) (H : Mat3)
    (xI xJ : List Point) (errorTh : ℚ) : List IndMatch :=
  (List.range xI.length).flatMap (fun i =>
    ((List.range xJ.length).filter (fun j =>
      decide (residual H (xI.getD i (0, 0)) (xJ.getD j (0, 0)) < errorTh))).map
      (fun j => (i, j)))

/-- The pixel-coordinate key under which deduplication compares two matches
(`IndMatchDecorator` stores each match decorated with its left and right
feature coordinates). -/
def coordKey (pI pJ : List Point) (m : IndMatch) : Point × Point :=
  (pI.getD m.1 (0, 0), pJ.getD m.2 (0, 0))

/-- Helper of `getDeduplicated`: keep each match whose coordinate key was not
seen before. -/
def dedupAux (pI pJ : List Point) : List IndMatch → List (Point × Point) → List IndMatch
  | [], _ => []
  | m :: rest, seen =>
    if coordKey pI pJ m ∈ seen then dedupAux pI pJ rest seen
    else m :: dedupAux pI pJ rest (coordKey pI pJ m :: seen)

/-- Modelled from the spec: `matching::IndMatchDecorator::getDeduplicated`
(declared outside src/): remove the matches whose (x,y) pixel coordinates in
both images coincide with those of a match already kept, comparing pixel
coordinates, not match indices. -/
def getDeduplicated (pI pJ : List Point) (ms : List IndMatch) : List IndMatch :=
  dedupAux pI pJ ms []

/-- The external strategy objects used by guided matching: the per-model
error metric, and the regions-based `geometry_aware::GuidedMatching` overload
(geometry + descriptor-ratio mode over all descriptors of both views jointly;
declared outside src/, kept abstract). Its arguments are the model, the two
(camera, all-regions) pairs, the squared precision, the squared distance
ratio, and the prior content of the in/out matches map. -/
structure GuidedExternals where
  residual : Mat3 → Point → Point → ℚ
  jointGuidedMatching : Mat3 → Option IntrinsicBase → List (DescType × List Point) →
    Option IntrinsicBase → List (DescType × List Point) → ℚ → ℚ →
    MatchesPerDescType → MatchesPerDescType

/-- The computation of the new `matches` content inside
`Geometry_guided_matching`, once the finite-precision guard passed (`prec` is
the finite robust precision) and the common descriptor types are non-empty:
the geometry-only per-type loop (with per-type coordinate deduplication) when
`dDistanceRatio < 0`, the joint regions-based guided matching otherwise. -/
def guidedMatchingRun (ext : GuidedExternals)
    (self : GeometricFilter_HMatrix_AC) (sfmData : SfM_Data)
    (rpv : RegionsPerView) (imageIdsPair : Nat × Nat) (dDistanceRatio : ℚ)
    (matches0 : MatchesPerDescType) (prec : ℚ) : MatchesPerDescType :=
  let cam_I := sfmData.intrinsics (sfmData.views imageIdsPair.1).id_intrinsic
  let cam_J := sfmData.intrinsics (sfmData.views imageIdsPair.2).id_intrinsic
  if dDistanceRatio < 0 then
    (rpv.commonDescTypes imageIdsPair).foldl (fun acc descType =>
      let pointsFeaturesI := rpv.positions imageIdsPair.1 descType
      let pointsFeaturesJ := rpv.positions imageIdsPair.2 descType
      let xI := fillMatricesWithUndistortFeatures cam_I pointsFeaturesI
      let xJ := fillMatricesWithUndistortFeatures cam_J pointsFeaturesJ
      let localMatches := GuidedMatchingPositions ext.residual self.m_H xI xJ (prec * prec)
      setKey acc descType (getDeduplicated pointsFeaturesI pointsFeaturesJ localMatches))
      matches0
  else
    ext.jointGuidedMatching self.m_H cam_I (rpv.allRegions imageIdsPair.1)
      cam_J (rpv.allRegions imageIdsPair.2) (prec * prec)
      (dDistanceRatio * dDistanceRatio) matches0

/-- `GeometricFilter_HMatrix_AC::Geometry_guided_matching`.  `matches0` is
the prior content of the in/out `matches` parameter (the source never clears
it).  Returns (flag `matches.getNbAllMatches() != 0`, or the early false
return, and the new matches content); no data member is assigned. -/
def Geometry_guided_matching (ext : GuidedExternals)
    (self : GeometricFilter_HMatrix_AC) (sfmData : SfM_Data)
    (rpv : RegionsPerView) (imageIdsPair : Nat × Nat) (dDistanceRatio : ℚ)
    (matches0 : MatchesPerDescType) : Bool × MatchesPerDescType :=
  match self.m_dPrecision_robust with
  | none => (getNbAllMatches matches0 != 0, matches0)
  | some prec =>
    if rpv.commonDescTypes imageIdsPair = [] then
      (false, matches0)
    else
      let matches1 :=
        guidedMatchingRun ext self sfmData rpv imageIdsPair dDistanceRatio matches0 prec
      (getNbAllMatches matches1 != 0, matches1)

/-- A concrete sampling loop used to instantiate the abstract search in
closed-form witnesses: it reports every point column as an inlier. -/
def search0 : ACSearch where
  run := fun _ xI _ _ _ _ _ =>
    { model := Mat3.identity, inliers := List.range xI.length, precision := 1, nfa := 0 }
  wf := by
    intro seed xI xJ dI dJ it bound i hi
    simpa using hi

/-- Concrete external strategies for closed-form witnesses. -/
def ext0 : GuidedExternals where
  residual := fun _ _ _ => 0
  jointGuidedMatching := fun _ _ _ _ _ _ _ m => m

/-- A concrete scene with two 10×10 views and no intrinsics. -/
def sfm0 : SfM_Data where
  views := fun _ => { ui_width := 10, ui_height := 10, id_intrinsic := 0 }
  intrinsics := fun _ => none

/-- A concrete regions provider: one common descriptor type, 12 features per
view. -/
def rpv0 : RegionsPerView where
  commonDescTypes := fun _ => [0]
  positions := fun _ _ => List.replicate 12 (0, 0)
  allRegions := fun _ => []

/-- A regions provider with no common descriptor types for any pair. -/
def rpvE : RegionsPerView where
  commonDescTypes := fun _ => []
  positions := fun _ _ => []
  allRegions := fun _ => []

/-- Eleven putative matches of descriptor type 0. -/
def put11 : MatchesPerDescType := [(0, (List.range 11).map (fun k => (k, k)))]

/-- A filter state as built by the constructor with unbounded precision. -/
def st0 : GeometricFilter_HMatrix_AC := GeometricFilter_HMatrix_AC.init none 1024

/-- A filter state after one successful estimation (finite robust precision). -/
def stP : GeometricFilter_HMatrix_AC := { st0 with m_dPrecision_robust := some 1 }

/-! ### Helper lemmas -/

theorem coefQ_eq : (MINIMUM_SAMPLES : ℚ) * OPENMVG_MINIMUM_SAMPLES_COEF = 10 := by
  norm_num [MINIMUM_SAMPLES, OPENMVG_MINIMUM_SAMPLES_COEF]

/-- Either the modelled `ACRANSAC` accepted (then its returned inlier count
exceeds the minimum-support bound) or it reports the failure tuple, leaving
the model slot at its prior value. -/
theorem ACRANSAC_cases (S : ACSearch) (seed : Nat) (xI xJ : List Point)
    (dI dJ : Nat × Nat) (it : Nat) (model : Mat3) (bound : Option ℚ) :
    (MINIMUM_SAMPLES : ℚ) * OPENMVG_MINIMUM_SAMPLES_COEF <
      ((ACRANSAC S seed xI xJ dI dJ it model bound).1.length : ℚ) ∨
    ACRANSAC S seed xI xJ dI dJ it model bound = ([], model, 0, 0) := by
  by_cases h : (MINIMUM_SAMPLES : ℚ) * OPENMVG_MINIMUM_SAMPLES_COEF <
      (((S.run seed xI xJ dI dJ it bound).inliers.length : ℚ))
  · left
    simpa [ACRANSAC, h] using h
  · right
    simp [ACRANSAC, h]

/-- Every inlier index returned by the modelled `ACRANSAC` is a valid column
index of the left point matrix. -/
theorem ACRANSAC_inliers_lt (S : ACSearch) (seed : Nat) (xI xJ : List Point)
    (dI dJ : Nat × Nat) (it : Nat) (model : Mat3) (bound : Option ℚ) :
    ∀ i ∈ (ACRANSAC S seed xI xJ dI dJ it model bound).1, i < xI.length := by
  by_cases h : (MINIMUM_SAMPLES : ℚ) * OPENMVG_MINIMUM_SAMPLES_COEF <
      (((S.run seed xI xJ dI dJ it bound).inliers.length : ℚ))
  · simpa [ACRANSAC, h] using S.wf seed xI xJ dI dJ it bound
  · simp [ACRANSAC, h]

/-- Complete case analysis of `Robust_estimation`: every call either fails,
returning `(false, unchanged state, empty output)` — and then the common
descriptor types were empty or the inlier count was at most the
minimum-support bound — or succeeds with the inlier count above the bound and
the output produced by `copyInlierMatches`. -/
theorem Robust_estimation_cases (S : ACSearch) (seed : Nat)
    (self : GeometricFilter_HMatrix_AC) (sfmData : SfM_Data)
    (rpv : RegionsPerView) (pairIndex : Nat × Nat)
    (put prior : MatchesPerDescType) :
    (Robust_estimation S seed self sfmData rpv pairIndex put prior = (false, self, []) ∧
      (rpv.commonDescTypes pairIndex = [] ∨
        ((robustEstimationInliers S seed self sfmData rpv pairIndex put).length : ℚ) ≤
          (MINIMUM_SAMPLES : ℚ) * OPENMVG_MINIMUM_SAMPLES_COEF)) ∨
    (rpv.commonDescTypes pairIndex ≠ [] ∧
      (MINIMUM_SAMPLES : ℚ) * OPENMVG_MINIMUM_SAMPLES_COEF <
        ((robustEstimationInliers S seed self sfmData rpv pairIndex put).length : ℚ) ∧
      (Robust_estimation S seed self sfmData rpv pairIndex put prior).1 = true ∧
      (Robust_estimation S seed self sfmData rpv pairIndex put prior).2.1.m_dPrecision_robust ≠
        none ∧
      (Robust_estimation S seed self sfmData rpv pairIndex put prior).2.2 =
        copyInlierMatches (robustEstimationInliers S seed self sfmData rpv pairIndex put)
          put (rpv.commonDescTypes pairIndex)) := by
  by_cases hD : rpv.commonDescTypes pairIndex = []
  · left
    constructor
    · simp [Robust_estimation, hD]
    · exact Or.inl hD
  · by_cases hC : ((robustEstimationInliers S seed self sfmData rpv pairIndex put).length : ℚ) ≤
        (MINIMUM_SAMPLES : ℚ) * OPENMVG_MINIMUM_SAMPLES_COEF
    · left
      refine ⟨?_, Or.inr hC⟩
      unfold robustEstimationInliers at hC
      simp only [Robust_estimation]
      rw [if_neg hD, if_pos hC]
      rcases ACRANSAC_cases S seed
          (MatchesPairToMat pairIndex put sfmData rpv (rpv.commonDescTypes pairIndex)).1
          (MatchesPairToMat pairIndex put sfmData rpv (rpv.commonDescTypes pairIndex)).2
          ((sfmData.views pairIndex.1).ui_width, (sfmData.views pairIndex.1).ui_height)
          ((sfmData.views pairIndex.2).ui_width, (sfmData.views pairIndex.2).ui_height)
          self.m_stIteration self.m_H (self.m_dPrecision.map (fun p => p * p)) with hA | hA
      · rw [robustEstimationAC] at hC
        exact absurd hC (not_le.mpr hA)
      · rw [robustEstimationAC, hA]
    · right
      have hEq : Robust_estimation S seed self sfmData rpv pairIndex put prior =
          (true,
            { self with
                m_H := (robustEstimationAC S seed self sfmData rpv pairIndex put).2.1
                m_dPrecision_robust :=
                  some (robustEstimationAC S seed self sfmData rpv pairIndex put).2.2.1 },
            copyInlierMatches (robustEstimationInliers S seed self sfmData rpv pairIndex put)
              put (rpv.commonDescTypes pairIndex)) := by
        unfold robustEstimationInliers at hC ⊢
        simp only [Robust_estimation]
        rw [if_neg hD, if_neg hC]
      refine ⟨hD, not_le.mp hC, ?_, ?_, ?_⟩ <;> rw [hEq] <;> simp

theorem mem_of_mem_selectByGlobalIndex (inliers : List Nat) :
    ∀ (offset : Nat) (ms : List IndMatch) (x : IndMatch),
      x ∈ selectByGlobalIndex inliers offset ms → x ∈ ms := by
  intro offset ms
  induction ms generalizing offset with
  | nil => intro x hx; simp [selectByGlobalIndex] at hx
  | cons m rest ih =>
    intro x hx
    rw [selectByGlobalIndex] at hx
    by_cases hm : offset ∈ inliers
    · rw [if_pos hm] at hx
      rcases List.mem_cons.mp hx with h | h
      · exact h ▸ List.mem_cons_self m rest
      · exact List.mem_cons_of_mem m (ih (offset + 1) x h)
    · rw [if_neg hm] at hx
      exact List.mem_cons_of_mem m (ih (offset + 1) x hx)

theorem length_selectByGlobalIndex_le (inliers : List Nat) :
    ∀ (offset : Nat) (ms : List IndMatch),
      (selectByGlobalIndex inliers offset ms).length ≤ ms.length := by
  intro offset ms
  induction ms generalizing offset with
  | nil => simp [selectByGlobalIndex]
  | cons m rest ih =>
    rw [selectByGlobalIndex]
    by_cases hm : offset ∈ inliers
    · rw [if_pos hm]
      simpa using ih (offset + 1)
    · rw [if_neg hm]
      exact le_trans (ih (offset + 1)) (Nat.le_succ _)

/-- `copyInlierMatches` keeps the keying of the putative input. -/
theorem copyInlierMatches_keys (inliers : List Nat) (put : MatchesPerDescType)
    (descTypes : List DescType) :
    (copyInlierMatches inliers put descTypes).map Prod.fst = put.map Prod.fst := by
  unfold copyInlierMatches
  rw [List.map_map]
  refine List.map_congr_left (fun p _ => ?_)
  by_cases hp : p.1 ∈ descTypes <;> simp [hp]

/-- Every match of the `copyInlierMatches` output under key `t` comes from
the putative list bound to `t`. -/
theorem copyInlierMatches_subset (inliers : List Nat) (put : MatchesPerDescType)
    (descTypes : List DescType) :
    ∀ t ms, (t, ms) ∈ copyInlierMatches inliers put descTypes →
      ∀ x ∈ ms, ∃ ms', (t, ms') ∈ put ∧ x ∈ ms' := by
  intro t ms hms x hx
  unfold copyInlierMatches at hms
  rcases List.mem_map.mp hms with ⟨p, hp, hEq⟩
  by_cases hd : p.1 ∈ descTypes
  · rw [if_pos hd, Prod.mk.injEq] at hEq
    obtain ⟨ht, hms'⟩ := hEq
    refine ⟨p.2, ?_, ?_⟩
    · rw [← ht]
      exact hp
    · exact mem_of_mem_selectByGlobalIndex inliers _ p.2 x (by rw [hms']; exact hx)
  · rw [if_neg hd, Prod.mk.injEq] at hEq
    rw [← hEq.2] at hx
    simp at hx

theorem getNbAllMatches_map_le (f : DescType × List IndMatch → DescType × List IndMatch)
    (h : ∀ p, (f p).2.length ≤ p.2.length) :
    ∀ put : MatchesPerDescType, getNbAllMatches (put.map f) ≤ getNbAllMatches put := by
  intro put
  induction put with
  | nil => simp [getNbAllMatches]
  | cons p rest ih =>
    rw [List.map_cons, getNbAllMatches, getNbAllMatches]
    exact Nat.add_le_add (h p) ih

/-- The total match count of the `copyInlierMatches` output never exceeds the
putative total. -/
theorem copyInlierMatches_nb_le (inliers : List Nat) (put : MatchesPerDescType)
    (descTypes : List DescType) :
    getNbAllMatches (copyInlierMatches inliers put descTypes) ≤ getNbAllMatches put := by
  unfold copyInlierMatches
  refine getNbAllMatches_map_le _ (fun p => ?_) put
  by_cases hp : p.1 ∈ descTypes
  · simpa [hp] using length_selectByGlobalIndex_le inliers (blockOffset put descTypes p.1) p.2
  · simp [hp]

theorem lookupD_eq_nil_of_nb_zero (put : MatchesPerDescType)
    (h : getNbAllMatches put = 0) : ∀ t, lookupD put t = [] := by
  induction put with
  | nil => intro t; rfl
  | cons p rest ih =>
    rw [getNbAllMatches, Nat.add_eq_zero] at h
    intro t
    rw [lookupD]
    split
    · exact List.eq_nil_of_length_eq_zero h.1
    · exact ih h.2 t

theorem fillMatrices_nil (cam : Option IntrinsicBase) :
    fillMatricesWithUndistortFeatures cam [] = [] := by
  cases cam with
  | none => rfl
  | some c => by_cases h : c.isValid <;> simp [fillMatricesWithUndistortFeatures, h]

theorem MatchesPairToMat_nil (pairIndex : Nat × Nat) (put : MatchesPerDescType)
    (sfmData : SfM_Data) (rpv : RegionsPerView) (descTypes : List DescType)
    (h : getNbAllMatches put = 0) :
    (MatchesPairToMat pairIndex put sfmData rpv descTypes).1 = [] := by
  unfold MatchesPairToMat
  have hflat : descTypes.flatMap (fun t =>
      (lookupD put t).map (fun m =>
        (((rpv.positions pairIndex.1 t).getD m.1 (0, 0) : Point),
         ((rpv.positions pairIndex.2 t).getD m.2 (0, 0) : Point)))) = [] := by
    rw [List.flatMap_eq_nil_iff]
    intro t _
    rw [lookupD_eq_nil_of_nb_zero put h t]
    rfl
  rw [hflat]
  exact fillMatrices_nil _

theorem robustEstimationInliers_nil_of_nb_zero (S : ACSearch) (seed : Nat)
    (self : GeometricFilter_HMatrix_AC) (sfmData : SfM_Data)
    (rpv : RegionsPerView) (pairIndex : Nat × Nat) (put : MatchesPerDescType)
    (h : getNbAllMatches put = 0) :
    robustEstimationInliers S seed self sfmData rpv pairIndex put = [] := by
  rw [robustEstimationInliers, robustEstimationAC]
  refine List.eq_nil_iff_forall_not_mem.mpr (fun i hi => ?_)
  have := ACRANSAC_inliers_lt S seed _ _ _ _ _ _ _ i hi
  rw [MatchesPairToMat_nil pairIndex put sfmData rpv _ h] at this
  simp at this


/-! ### Claim theorems -/

/-- Claim C1: if `Robust_estimation` fails (insufficient inliers, or any
other failure path), the stored member `m_H` is left at its prior value: a
failed estimation call does not modify `m_H`. -/
theorem robustEstimation_failure_preserves_mH (S : ACSearch) (seed : Nat)
    (self : GeometricFilter_HMatrix_AC) (sfmData : SfM_Data)
    (rpv : RegionsPerView) (pairIndex : Nat × Nat)
    (put prior : MatchesPerDescType)
    (h : (Robust_estimation S seed self sfmData rpv pairIndex put prior).1 = false) :
    (Robust_estimation S seed self sfmData rpv pairIndex put prior).2.1.m_H = self.m_H := by
  rcases Robust_estimation_cases S seed self sfmData rpv pairIndex put prior with
    ⟨hEq, _⟩ | ⟨_, _, hT, _⟩
  · rw [hEq]
  · rw [hT] at h
    cases h

theorem robustEstimation_failure_preserves_mH_witness :
    (Robust_estimation search0 0 st0 sfm0 rpvE (0, 1) put11 []).1 = false ∧
    (Robust_estimation search0 0 st0 sfm0 rpvE (0, 1) put11 []).2.1.m_H = st0.m_H :=
  ⟨by decide,
   robustEstimation_failure_preserves_mH search0 0 st0 sfm0 rpvE (0, 1) put11 [] (by decide)⟩

/-- Claim C10: `m_dPrecision_robust` is assigned only on the success path of
`Robust_estimation`; on every failure return it keeps its prior value.
Consequently, if it was finite before a failed call, it stays finite after
it, so the finite-precision guard of `Geometry_guided_matching` still admits
the call with the stale precision. -/
theorem robustEstimation_failure_preserves_precision (S : ACSearch) (seed : Nat)
    (self : GeometricFilter_HMatrix_AC) (sfmData : SfM_Data)
    (rpv : RegionsPerView) (pairIndex : Nat × Nat)
    (put prior : MatchesPerDescType)
    (h : (Robust_estimation S seed self sfmData rpv pairIndex put prior).1 = false) :
    (Robust_estimation S seed self sfmData rpv pairIndex put prior).2.1.m_dPrecision_robust =
      self.m_dPrecision_robust ∧
    (∀ p : ℚ, self.m_dPrecision_robust = some p →
      (Robust_estimation S seed self sfmData rpv pairIndex put prior).2.1.m_dPrecision_robust =
        some p ∧
      (Robust_estimation S seed self sfmData rpv pairIndex put
        prior).2.1.m_dPrecision_robust ≠ none) := by
  rcases Robust_estimation_cases S seed self sfmData rpv pairIndex put prior with
    ⟨hEq, _⟩ | ⟨_, _, hT, _⟩
  · rw [hEq]
    exact ⟨rfl, fun p hp => ⟨hp, by rw [hp]; simp⟩⟩
  · rw [hT] at h
    cases h

theorem robustEstimation_failure_preserves_precision_witness :
    (Robust_estimation search0 0 stP sfm0 rpvE (0, 1) put11 []).1 = false ∧
    ((Robust_estimation search0 0 stP sfm0 rpvE (0, 1) put11 []).2.1.m_dPrecision_robust =
        some 1 ∧
      (Robust_estimation search0 0 stP sfm0 rpvE (0, 1) put11 []).2.1.m_dPrecision_robust ≠
        none) :=
  ⟨by decide,
   (robustEstimation_failure_preserves_precision search0 0 stP sfm0 rpvE (0, 1) put11 []
      (by decide)).2 1 (by decide)⟩

/-- Claim C5: if the two views have no common descriptor types, or there are
zero putative matches, `Robust_estimation` returns `false` (totally, raising
nothing), and the output parameter is left empty regardless of its contents
before the call (it is cleared on entry). -/
theorem robustEstimation_degenerate_input (S : ACSearch) (seed : Nat)
    (self : GeometricFilter_HMatrix_AC) (sfmData : SfM_Data)
    (rpv : RegionsPerView) (pairIndex : Nat × Nat)
    (put prior : MatchesPerDescType)
    (h : rpv.commonDescTypes pairIndex = [] ∨ getNbAllMatches put = 0) :
    Robust_estimation S seed self sfmData rpv pairIndex put prior = (false, self, []) := by
  rcases Robust_estimation_cases S seed self sfmData rpv pairIndex put prior with
    ⟨hEq, _⟩ | ⟨hD, hC, _⟩
  · exact hEq
  · rcases h with h | h
    · exact absurd h hD
    · rw [robustEstimationInliers_nil_of_nb_zero S seed self sfmData rpv pairIndex put h] at hC
      rw [coefQ_eq] at hC
      norm_num at hC

theorem robustEstimation_degenerate_input_witness :
    (rpvE.commonDescTypes (0, 1) = [] ∨ getNbAllMatches put11 = 0) ∧
    Robust_estimation search0 0 st0 sfm0 rpvE (0, 1) put11 [(5, [(1, 2)])] =
      (false, st0, []) :=
  ⟨Or.inl (by decide),
   robustEstimation_degenerate_input search0 0 st0 sfm0 rpvE (0, 1) put11 [(5, [(1, 2)])]
     (Or.inl (by decide))⟩

/-- Claim C3: the acceptance bound is `MINIMUM_SAMPLES * OPENMVG_MINIMUM_SAMPLES_COEF
= 4 * 2.5 = 10`; whenever `Robust_estimation` returns `true` the inlier count
strictly exceeds 10, and whenever the count does not exceed 10 the call
returns `false` with an empty inlier output. -/
theorem robustEstimation_minimum_support (S : ACSearch) (seed : Nat)
    (self : GeometricFilter_HMatrix_AC) (sfmData : SfM_Data)
    (rpv : RegionsPerView) (pairIndex : Nat × Nat)
    (put prior : MatchesPerDescType) :
    (MINIMUM_SAMPLES : ℚ) * OPENMVG_MINIMUM_SAMPLES_COEF = 10 ∧
    ((Robust_estimation S seed self sfmData rpv pairIndex put prior).1 = true →
      10 < (robustEstimationInliers S seed self sfmData rpv pairIndex put).length) ∧
    ((robustEstimationInliers S seed self sfmData rpv pairIndex put).length ≤ 10 →
      (Robust_estimation S seed self sfmData rpv pairIndex put prior).1 = false ∧
      (Robust_estimation S seed self sfmData rpv pairIndex put prior).2.2 = []) := by
  refine ⟨coefQ_eq, ?_, ?_⟩
  · intro h
    rcases Robust_estimation_cases S seed self sfmData rpv pairIndex put prior with
      ⟨hEq, _⟩ | ⟨_, hC, _⟩
    · rw [hEq] at h
      cases h
    · rw [coefQ_eq] at hC
      exact_mod_cast hC
  · intro h
    rcases Robust_estimation_cases S seed self sfmData rpv pairIndex put prior with
      ⟨hEq, _⟩ | ⟨_, hC, _⟩
    · rw [hEq]
      exact ⟨rfl, rfl⟩
    · rw [coefQ_eq] at hC
      have : (10 : ℚ) < (10 : ℚ) := lt_of_lt_of_le hC (by exact_mod_cast h)
      exact absurd this (lt_irrefl _)

theorem robustEstimation_minimum_support_witness :
    (Robust_estimation search0 0 st0 sfm0 rpv0 (0, 1) put11 []).1 = true ∧
    10 < (robustEstimationInliers search0 0 st0 sfm0 rpv0 (0, 1) put11).length :=
  ⟨by decide,
   (robustEstimation_minimum_support search0 0 st0 sfm0 rpv0 (0, 1) put11 []).2.1 (by decide)⟩

/-- Claim C4: whenever `Robust_estimation` returns `true`, the output
`geometricInliersPerType` is keyed by the same descriptor types as the
putative input, every match in it is drawn from the putative set, and its
total match count does not exceed the putative total. -/
theorem robustEstimation_success_output (S : ACSearch) (seed : Nat)
    (self : GeometricFilter_HMatrix_AC) (sfmData : SfM_Data)
    (rpv : RegionsPerView) (pairIndex : Nat × Nat)
    (put prior : MatchesPerDescType)
    (h : (Robust_estimation S seed self sfmData rpv pairIndex put prior).1 = true) :
    ((Robust_estimation S seed self sfmData rpv pairIndex put prior).2.2).map Prod.fst =
      put.map Prod.fst ∧
    (∀ t ms, (t, ms) ∈ (Robust_estimation S seed self sfmData rpv pairIndex put prior).2.2 →
      ∀ x ∈ ms, ∃ ms', (t, ms') ∈ put ∧ x ∈ ms') ∧
    getNbAllMatches (Robust_estimation S seed self sfmData rpv pairIndex put prior).2.2 ≤
      getNbAllMatches put := by
  rcases Robust_estimation_cases S seed self sfmData rpv pairIndex put prior with
    ⟨hEq, _⟩ | ⟨_, _, _, _, hOut⟩
  · rw [hEq] at h
    cases h
  · rw [hOut]
    exact ⟨copyInlierMatches_keys _ put _, copyInlierMatches_subset _ put _,
      copyInlierMatches_nb_le _ put _⟩

theorem robustEstimation_success_output_witness :
    (Robust_estimation search0 0 st0 sfm0 rpv0 (0, 1) put11 []).1 = true ∧
    (((Robust_estimation search0 0 st0 sfm0 rpv0 (0, 1) put11 []).2.2).map Prod.fst =
        put11.map Prod.fst ∧
      getNbAllMatches (Robust_estimation search0 0 st0 sfm0 rpv0 (0, 1) put11 []).2.2 ≤
        getNbAllMatches put11) :=
  ⟨by decide,
   (robustEstimation_success_output search0 0 st0 sfm0 rpv0 (0, 1) put11 [] (by decide)).1,
   (robustEstimation_success_output search0 0 st0 sfm0 rpv0 (0, 1) put11 [] (by decide)).2.2⟩

/-- A concrete valid camera used in closed-form witnesses. -/
def camU : IntrinsicBase := { isValid := true, get_ud_pixel := fun p => (p.1 + 1, p.2) }

/-- A concrete invalid camera used in closed-form witnesses. -/
def camV : IntrinsicBase := { isValid := false, get_ud_pixel := fun p => (p.1 + 1, p.2) }

/-- Claim C6: with an absent or invalid intrinsics collaborator,
`fillMatricesWithUndistortFeatures` writes the raw feature coordinates
unchanged (passthrough), one column per feature in input order; with a valid
collaborator, each column is the undistorted coordinate of the corresponding
feature. -/
theorem fillMatrices_passthrough_or_undistort :
    (∀ feats : List Point, fillMatricesWithUndistortFeatures none feats = feats) ∧
    (∀ (c : IntrinsicBase) (feats : List Point), c.isValid = false →
      fillMatricesWithUndistortFeatures (some c) feats = feats) ∧
    (∀ (c : IntrinsicBase) (feats : List Point), c.isValid = true →
      (fillMatricesWithUndistortFeatures (some c) feats).length = feats.length ∧
      ∀ i : Nat, (fillMatricesWithUndistortFeatures (some c) feats).get? i =
        (feats.get? i).map c.get_ud_pixel) := by
  refine ⟨fun feats => rfl,
    fun c feats h => by simp [fillMatricesWithUndistortFeatures, h],
    fun c feats h => ⟨by simp [fillMatricesWithUndistortFeatures, h], fun i => ?_⟩⟩
  simp [fillMatricesWithUndistortFeatures, h, List.get?_map]

theorem fillMatrices_passthrough_or_undistort_witness :
    fillMatricesWithUndistortFeatures (some camV) [((1 : ℚ), (2 : ℚ))] =
      [((1 : ℚ), (2 : ℚ))] ∧
    (fillMatricesWithUndistortFeatures (some camU) [((1 : ℚ), (2 : ℚ))]).get? 0 =
      (([((1 : ℚ), (2 : ℚ))] : List Point).get? 0).map camU.get_ud_pixel :=
  ⟨fillMatrices_passthrough_or_undistort.2.1 camV [((1 : ℚ), (2 : ℚ))] rfl,
   (fillMatrices_passthrough_or_undistort.2.2 camU [((1 : ℚ), (2 : ℚ))] rfl).2 0⟩

/-- Claim C2 (counterexample): a call to `Geometry_guided_matching` while
`m_dPrecision_robust` is still unbounded, made with a non-empty prior content
in the in/out `matches` parameter, returns `true` with a non-empty output —
refuting "the call returns failure (false) and the output Correspondence Set
is empty" as a statement about every such call. -/
theorem guidedMatching_unbounded_counterexample :
    st0.m_dPrecision_robust = none ∧
    (Geometry_guided_matching ext0 st0 sfm0 rpv0 (0, 1) (-1) [(0, [(0, 0)])]).1 = true ∧
    (Geometry_guided_matching ext0 st0 sfm0 rpv0 (0, 1) (-1) [(0, [(0, 0)])]).2 ≠ [] :=
  ⟨rfl, by decide, by decide⟩

/-- Claim C2 (amended): while the robust precision is unbounded (no prior
successful estimation), `Geometry_guided_matching` has no side effect — no
data member is assigned and the output parameter keeps its prior content —
and returns whether that prior content is non-empty; in particular, a call
whose output parameter is empty on entry returns `false` with an empty
output. -/
theorem guidedMatching_unbounded_guard (ext : GuidedExternals)
    (self : GeometricFilter_HMatrix_AC) (sfmData : SfM_Data)
    (rpv : RegionsPerView) (pair : Nat × Nat) (ratio : ℚ)
    (m0 : MatchesPerDescType) (h : self.m_dPrecision_robust = none) :
    Geometry_guided_matching ext self sfmData rpv pair ratio m0 =
      ((getNbAllMatches m0 != 0), m0) ∧
    (m0 = [] →
      Geometry_guided_matching ext self sfmData rpv pair ratio m0 = (false, [])) := by
  constructor
  · simp [Geometry_guided_matching, h]
  · intro hm
    subst hm
    simp [Geometry_guided_matching, h, getNbAllMatches]

theorem guidedMatching_unbounded_guard_witness :
    st0.m_dPrecision_robust = none ∧
    Geometry_guided_matching ext0 st0 sfm0 rpv0 (0, 1) (-1) [] = (false, []) :=
  ⟨rfl, (guidedMatching_unbounded_guard ext0 st0 sfm0 rpv0 (0, 1) (-1) [] rfl).2 rfl⟩

theorem dedupAux_idem (pI pJ : List Point) :
    ∀ (l : List IndMatch) (seen : List (Point × Point)),
      dedupAux pI pJ (dedupAux pI pJ l seen) seen = dedupAux pI pJ l seen := by
  intro l
  induction l with
  | nil => intro seen; rfl
  | cons m rest ih =>
    intro seen
    rw [dedupAux]
    by_cases hm : coordKey pI pJ m ∈ seen
    · rw [if_pos hm]
      exact ih seen
    · rw [if_neg hm, dedupAux, if_neg hm, ih (coordKey pI pJ m :: seen)]

/-- Claim C8: the coordinate-based deduplication pass is idempotent — running
`getDeduplicated` twice yields the same result as running it once, for any
match list and any two feature-position lists. -/
theorem getDeduplicated_idempotent (pI pJ : List Point) (ms : List IndMatch) :
    getDeduplicated pI pJ (getDeduplicated pI pJ ms) = getDeduplicated pI pJ ms :=
  dedupAux_idem pI pJ ms []

/-- Claim C9: with the random source injected as an explicit seed (spec §9),
`Robust_estimation` is a pure function of the seed, the state, the input
points and the iteration budget: two runs on the same inputs return the same
homography `m_H`, the same inlier set, and the same robust precision
`m_dPrecision_robust`. -/
theorem robustEstimation_deterministic (S : ACSearch) (seed1 seed2 : Nat)
    (self1 self2 : GeometricFilter_HMatrix_AC) (sfmData : SfM_Data)
    (rpv : RegionsPerView) (pairIndex : Nat × Nat)
    (put1 put2 prior1 prior2 : MatchesPerDescType)
    (hseed : seed1 = seed2) (hself : self1 = self2) (hput : put1 = put2)
    (hprior : prior1 = prior2) :
    (Robust_estimation S seed1 self1 sfmData rpv pairIndex put1 prior1).2.1.m_H =
      (Robust_estimation S seed2 self2 sfmData rpv pairIndex put2 prior2).2.1.m_H ∧
    robustEstimationInliers S seed1 self1 sfmData rpv pairIndex put1 =
      robustEstimationInliers S seed2 self2 sfmData rpv pairIndex put2 ∧
    (Robust_estimation S seed1 self1 sfmData rpv pairIndex put1 prior1).2.2 =
      (Robust_estimation S seed2 self2 sfmData rpv pairIndex put2 prior2).2.2 ∧
    (Robust_estimation S seed1 self1 sfmData rpv pairIndex put1
        prior1).2.1.m_dPrecision_robust =
      (Robust_estimation S seed2 self2 sfmData rpv pairIndex put2
        prior2).2.1.m_dPrecision_robust := by
  subst hseed hself hput hprior
  exact ⟨rfl, rfl, rfl, rfl⟩

theorem robustEstimation_deterministic_witness :
    (Robust_estimation search0 7 st0 sfm0 rpv0 (0, 1) put11 []).2.1.m_H =
      (Robust_estimation search0 7 st0 sfm0 rpv0 (0, 1) put11 []).2.1.m_H ∧
    robustEstimationInliers search0 7 st0 sfm0 rpv0 (0, 1) put11 =
      robustEstimationInliers search0 7 st0 sfm0 rpv0 (0, 1) put11 ∧
    (Robust_estimation search0 7 st0 sfm0 rpv0 (0, 1) put11 []).2.2 =
      (Robust_estimation search0 7 st0 sfm0 rpv0 (0, 1) put11 []).2.2 ∧
    (Robust_estimation search0 7 st0 sfm0 rpv0 (0, 1) put11 []).2.1.m_dPrecision_robust =
      (Robust_estimation search0 7 st0 sfm0 rpv0 (0, 1) put11 []).2.1.m_dPrecision_robust :=
  robustEstimation_deterministic search0 7 7 st0 st0 sfm0 rpv0 (0, 1) put11 put11 [] []
    rfl rfl rfl rfl

theorem lookupD_append_not_mem (t : DescType) (v : List IndMatch) :
    ∀ m : MatchesPerDescType, t ∉ m.map Prod.fst → lookupD (m ++ [(t, v)]) t = v := by
  intro m
  induction m with
  | nil => intro _; simp [lookupD]
  | cons p rest ih =>
    intro h
    rw [List.map_cons, List.mem_cons] at h
    push_neg at h
    rw [List.cons_append, lookupD, if_neg (fun he => h.1 he.symm)]
    exact ih h.2

theorem lookupD_append (t d : DescType) (v : List IndMatch) (h : d ≠ t) :
    ∀ m : MatchesPerDescType, lookupD (m ++ [(d, v)]) t = lookupD m t := by
  intro m
  induction m with
  | nil => simp [lookupD, h]
  | cons p rest ih =>
    rw [List.cons_append, lookupD, lookupD]
    by_cases hp : p.1 = t
    · rw [if_pos hp, if_pos hp]
    · rw [if_neg hp, if_neg hp]
      exact ih

theorem lookupD_replace_mem (t : DescType) (v : List IndMatch) :
    ∀ m : MatchesPerDescType, t ∈ m.map Prod.fst →
      lookupD (m.map (fun p => if p.1 = t then (t, v) else p)) t = v := by
  intro m
  induction m with
  | nil => intro h; simp at h
  | cons p rest ih =>
    intro h
    rw [List.map_cons, lookupD]
    by_cases hp : p.1 = t
    · rw [if_pos hp]
      simp
    · rw [if_neg hp, if_neg hp]
      refine ih ?_
      rw [List.map_cons, List.mem_cons] at h
      rcases h with h | h
      · exact absurd h.symm hp
      · exact h

theorem lookupD_replace_other (t d : DescType) (v : List IndMatch) (h : d ≠ t) :
    ∀ m : MatchesPerDescType,
      lookupD (m.map (fun p => if p.1 = d then (d, v) else p)) t = lookupD m t := by
  intro m
  induction m with
  | nil => rfl
  | cons p rest ih =>
    rw [List.map_cons, lookupD, lookupD]
    by_cases hp : p.1 = d
    · rw [if_pos hp]
      have : ¬ (d = t) := h
      simp only [this, if_false]
      rw [if_neg (by rw [hp]; exact h : ¬ p.1 = t)]
      exact ih
    · rw [if_neg hp]
      by_cases hq : p.1 = t
      · rw [if_pos hq, if_pos hq]
      · rw [if_neg hq, if_neg hq]
        exact ih

/-- `setKey` stores its value: looking the key up afterwards returns it. -/
theorem lookupD_setKey_self (m : MatchesPerDescType) (t : DescType) (v : List IndMatch) :
    lookupD (setKey m t v) t = v := by
  rw [setKey]
  by_cases hmem : t ∈ m.map Prod.fst
  · rw [if_pos hmem]
    exact lookupD_replace_mem t v m hmem
  · rw [if_neg hmem]
    exact lookupD_append_not_mem t v m hmem

/-- `setKey` at a different key leaves a lookup unchanged. -/
theorem lookupD_setKey_other (m : MatchesPerDescType) (t d : DescType)
    (v : List IndMatch) (h : d ≠ t) : lookupD (setKey m d v) t = lookupD m t := by
  rw [setKey]
  by_cases hmem : d ∈ m.map Prod.fst
  · rw [if_pos hmem]
    exact lookupD_replace_other t d v h m
  · rw [if_neg hmem]
    exact lookupD_append t d v h m

theorem lookupD_foldl_setKey_not_mem (f : DescType → List IndMatch) :
    ∀ (l : List DescType) (acc : MatchesPerDescType) (t : DescType), t ∉ l →
      lookupD (l.foldl (fun a d => setKey a d (f d)) acc) t = lookupD acc t := by
  intro l
  induction l with
  | nil => intro acc t _; rfl
  | cons d rest ih =>
    intro acc t ht
    rw [List.mem_cons] at ht
    push_neg at ht
    rw [List.foldl_cons, ih (setKey acc d (f d)) t ht.2]
    exact lookupD_setKey_other acc t d (f d) (fun he => ht.1 he.symm)

/-- After the per-type loop (`foldl` of `setKey`) over distinct descriptor
types, each processed type is bound to the value computed for it. -/
theorem lookupD_foldl_setKey_mem (f : DescType → List IndMatch) :
    ∀ (l : List DescType) (acc : MatchesPerDescType) (t : DescType), l.Nodup → t ∈ l →
      lookupD (l.foldl (fun a d => setKey a d (f d)) acc) t = f t := by
  intro l
  induction l with
  | nil => intro acc t _ ht; simp at ht
  | cons d rest ih =>
    intro acc t hnd ht
    rw [List.foldl_cons]
    rcases List.mem_cons.mp ht with h | h
    · subst h
      rw [lookupD_foldl_setKey_not_mem f rest _ t (List.nodup_cons.mp hnd).1]
      exact lookupD_setKey_self acc t (f t)
    · exact ih (setKey acc d (f d)) t (List.nodup_cons.mp hnd).2 h

/-- Membership in the position-only guided matching output: `(i, j)` is a
candidate exactly when both indices are in range and the residual is within
the threshold. -/
theorem mem_GuidedMatchingPositions (residual : Mat3 → Point → Point → ℚ)
    (H : Mat3) (xI xJ : List Point) (errorTh : ℚ) (i j : Nat) :
    (i, j) ∈ GuidedMatchingPositions residual H xI xJ errorTh ↔
      i < xI.length ∧ j < xJ.length ∧
        residual H (xI.getD i (0, 0)) (xJ.getD j (0, 0)) < errorTh := by
  unfold GuidedMatchingPositions
  simp only [List.mem_flatMap, List.mem_map, List.mem_filter, List.mem_range,
    decide_eq_true_eq, Prod.mk.injEq]
  constructor
  · rintro ⟨a, ha, b, ⟨hb, hres⟩, hai, hbj⟩
    subst hai
    subst hbj
    exact ⟨ha, hb, hres⟩
  · rintro ⟨hi, hj, hres⟩
    exact ⟨i, hi, j, ⟨hj, hres⟩, rfl, rfl⟩

/-- Claim C7: `Geometry_guided_matching` selects its mode solely by the sign
of `dDistanceRatio`.  Once the finite-precision guard has passed: when
`dDistanceRatio < 0`, every common descriptor type is matched independently
using only the (undistorted) region positions — a pair `(i, j)` is a
candidate exactly when the residual of the corresponding undistorted
positions under `m_H` is below the squared robust precision — and the
per-type result stored under that type is the coordinate-based deduplication
(on the raw pixel positions) of those candidates; when `dDistanceRatio ≥ 0`,
the result is the joint regions-based guided matching over all descriptors
of both images, at the squared robust precision and the squared distance
ratio. -/
theorem guidedMatching_mode_selection (ext : GuidedExternals)
    (self : GeometricFilter_HMatrix_AC) (sfmData : SfM_Data)
    (rpv : RegionsPerView) (pair : Nat × Nat) (ratio : ℚ)
    (m0 : MatchesPerDescType) (prec : ℚ)
    (hprec : self.m_dPrecision_robust = some prec) :
    (ratio < 0 → (rpv.commonDescTypes pair).Nodup →
      ∀ t ∈ rpv.commonDescTypes pair,
        lookupD (Geometry_guided_matching ext self sfmData rpv pair ratio m0).2 t =
          getDeduplicated (rpv.positions pair.1 t) (rpv.positions pair.2 t)
            (GuidedMatchingPositions ext.residual self.m_H
              (fillMatricesWithUndistortFeatures
                (sfmData.intrinsics (sfmData.views pair.1).id_intrinsic)
                (rpv.positions pair.1 t))
              (fillMatricesWithUndistortFeatures
                (sfmData.intrinsics (sfmData.views pair.2).id_intrinsic)
                (rpv.positions pair.2 t))
              (prec * prec))) ∧
    (∀ (xI xJ : List Point) (i j : Nat),
      (i, j) ∈ GuidedMatchingPositions ext.residual self.m_H xI xJ (prec * prec) ↔
        i < xI.length ∧ j < xJ.length ∧
          ext.residual self.m_H (xI.getD i (0, 0)) (xJ.getD j (0, 0)) < prec * prec) ∧
    (0 ≤ ratio → rpv.commonDescTypes pair ≠ [] →
      (Geometry_guided_matching ext self sfmData rpv pair ratio m0).2 =
        ext.jointGuidedMatching self.m_H
          (sfmData.intrinsics (sfmData.views pair.1).id_intrinsic)
          (rpv.allRegions pair.1)
          (sfmData.intrinsics (sfmData.views pair.2).id_intrinsic)
          (rpv.allRegions pair.2) (prec * prec) (ratio * ratio) m0) := by
  refine ⟨?_, fun xI xJ i j => mem_GuidedMatchingPositions ext.residual self.m_H xI xJ
    (prec * prec) i j, ?_⟩
  · intro hr hnd t ht
    have hD : rpv.commonDescTypes pair ≠ [] := List.ne_nil_of_mem ht
    have hEq : (Geometry_guided_matching ext self sfmData rpv pair ratio m0).2 =
        guidedMatchingRun ext self sfmData rpv pair ratio m0 prec := by
      simp [Geometry_guided_matching, hprec, hD]
    rw [hEq]
    unfold guidedMatchingRun
    rw [if_pos hr]
    exact lookupD_foldl_setKey_mem _ (rpv.commonDescTypes pair) m0 t hnd ht
  · intro hr hD
    have hEq : (Geometry_guided_matching ext self sfmData rpv pair ratio m0).2 =
        guidedMatchingRun ext self sfmData rpv pair ratio m0 prec := by
      simp [Geometry_guided_matching, hprec, hD]
    rw [hEq]
    unfold guidedMatchingRun
    rw [if_neg (not_lt.mpr hr)]

theorem guidedMatching_mode_selection_witness :
    stP.m_dPrecision_robust = some 1 ∧
    lookupD (Geometry_guided_matching ext0 stP sfm0 rpv0 (0, 1) (-1) []).2 0 =
      getDeduplicated (rpv0.positions (0, 1).1 0) (rpv0.positions (0, 1).2 0)
        (GuidedMatchingPositions ext0.residual stP.m_H
          (fillMatricesWithUndistortFeatures
            (sfm0.intrinsics (sfm0.views (0, 1).1).id_intrinsic)
            (rpv0.positions (0, 1).1 0))
          (fillMatricesWithUndistortFeatures
            (sfm0.intrinsics (sfm0.views (0, 1).2).id_intrinsic)
            (rpv0.positions (0, 1).2 0))
          (1 * 1)) ∧
    (Geometry_guided_matching ext0 stP sfm0 rpv0 (0, 1) 2 []).2 =
      ext0.jointGuidedMatching stP.m_H
        (sfm0.intrinsics (sfm0.views (0, 1).1).id_intrinsic)
        (rpv0.allRegions (0, 1).1)
        (sfm0.intrinsics (sfm0.views (0, 1).2).id_intrinsic)
        (rpv0.allRegions (0, 1).2) (1 * 1) (2 * 2) [] :=
  ⟨rfl,
   (guidedMatching_mode_selection ext0 stP sfm0 rpv0 (0, 1) (-1) [] 1 rfl).1
     (by decide) (by decide) 0 (by decide),
   (guidedMatching_mode_selection ext0 stP sfm0 rpv0 (0, 1) 2 [] 1 rfl).2.2
     (by decide) (by decide)⟩
